import Mathlib

/-!
Verification development for the go-paypal client library (package paypal,
file paypal.go). Go strings are modelled as lists of characters, the Go
float64 type as exact rational numbers together with an explicit model of
IEEE 754 round-to-nearest, the JSON subset used by the library as an
executable marshaller and parser, and the filesystem touched by Load and
Create as an explicit association list threaded through the functions.
-/

/-- Go strings, modelled as lists of characters. -/
abbrev Str := List Char

/-- Converts a Lean string literal to the Str model. -/
def chars (s : String) : Str := s.data

/-- The opening curly brace character. -/
def braceL : Char := Char.ofNat 123

/-- The closing curly brace character. -/
def braceR : Char := Char.ofNat 125

/-- Model of strings.HasSuffix(s, "/") as used in paypal.go line 319:
a nonempty string has the suffix "/" exactly when its last byte is a slash. -/
def endsWithSlash (s : Str) : Bool :=
  match s.getLast? with
  | some c => c = '/'
  | none => false

/-- Model of ensureTrailingSlash, paypal.go lines 318 to 324. -/
def ensureTrailingSlash (s : Str) : Str :=
  if endsWithSlash s then s else s ++ ['/']

/-- The request target built by Capture, paypal.go line 287:
ensureTrailingSlash(config.OrderAPI) + orderID + "/capture". -/
def captureURL (base orderID : Str) : Str :=
  ensureTrailingSlash base ++ (orderID ++ chars "/capture")

/-!
Exact model of the IEEE 754 binary64 computation float64(euroCents) / 100.0
performed by CreateOrder, paypal.go line 156. For the integer inputs the
claims quantify over, float64(euroCents) is exact, and the division is the
correctly rounded (round to nearest, ties to even) quotient at 53 bits of
precision. The model computes that correctly rounded value as an exact
rational number.
-/

/-- Fuel-driven binary logarithm: log2f fuel n computes the floor of log2 n
for n above one, provided fuel bounds the number of halvings. -/
def log2f : Nat → Nat → Nat
  | 0, _ => 0
  | fuel + 1, n => if n ≤ 1 then 0 else log2f fuel (n / 2) + 1

/-- Floor of the base-two logarithm of a natural number (zero for inputs
zero and one). Fuel 128 is sufficient for every input below 2 to the 128. -/
def floorLog2 (n : Nat) : Nat := log2f 128 n

/-- Round to nearest integer, ties to even: the rounding applied by IEEE 754
binary64 arithmetic to the scaled significand. -/
def rne (q : ℚ) : ℤ :=
  if q - ⌊q⌋ < 1/2 then ⌊q⌋
  else if 1/2 < q - ⌊q⌋ then ⌊q⌋ + 1
  else if ⌊q⌋ % 2 = 0 then ⌊q⌋ else ⌊q⌋ + 1

/-- Rounds a rational to the nearest multiple of 2 to the e, ties to even. -/
def rndAt (e : ℤ) (q : ℚ) : ℚ := ((rne (q / 2 ^ e) : ℤ) : ℚ) * 2 ^ e

/-- Exact value of the float64 quotient float64(n) / 100.0 for a nonnegative
integer n below 2 to the 53 (so that float64(n) is exact). The quotient n/100
lies in the binade starting at 2 to the L with L the floor of log2 (n/100),
hence the IEEE result keeps 53 significant bits: it is n/100 rounded to the
nearest multiple of 2 to the (L - 52). The binade index is computed exactly:
floorLog2 (n * 2 ^ 20 / 100) - 20 equals the floor of log2 (n / 100) because
scaling by 2 to the 20 makes the quotient at least one for every n above
zero while shifting its base-two logarithm by exactly 20. -/
def f64Div100 (n : ℕ) : ℚ :=
  if n = 0 then 0
  else rndAt ((floorLog2 (n * 2 ^ 20 / 100) : ℤ) - 20 - 52) ((n : ℚ) / 100)

/-- Extension of f64Div100 to Go int inputs: IEEE 754 rounding is symmetric,
so the float64 quotient of a negative count is the negated quotient of its
absolute value. -/
def f64Div100Z (n : ℤ) : ℚ :=
  if n < 0 then -(f64Div100 n.natAbs) else f64Div100 n.natAbs

/-- Rounds a rational to the nearest multiple of 1/100 (two decimal places),
ties to even. Used to state that the converted amount carries no rounding
error at two decimal places. -/
def round2 (q : ℚ) : ℚ := ((rne (q * 100) : ℤ) : ℚ) / 100

/-!
Executable model of the JSON fragment exchanged by the library. The package
delegates serialization to encoding/json, which the specification places out
of scope as an external collaborator; the model below reproduces its
observable behavior on the document shapes the claims exercise: flat objects
whose values are strings or nonnegative integer literals, together with the
full string escaping rules of the Go encoder. Nested objects, arrays,
booleans, fractional or negative numbers and surrogate pairs occur in no
claim and are not modelled; structs with fields of such shapes carry a note
at their definition.
-/

deriving instance DecidableEq for Except

/-- JSON whitespace. -/
def isWs (c : Char) : Bool := c = ' ' ∨ c = '\t' ∨ c = '\n' ∨ c = '\r'

/-- Drops leading JSON whitespace. -/
def skipWs : Str → Str
  | [] => []
  | c :: r => if isWs c then skipWs r else c :: r

/-- Value of one hexadecimal digit, both cases accepted as the Go decoder does. -/
def hexVal (c : Char) : Option Nat :=
  if '0' ≤ c ∧ c ≤ '9' then some (c.toNat - 48)
  else if 'a' ≤ c ∧ c ≤ 'f' then some (c.toNat - 87)
  else if 'A' ≤ c ∧ c ≤ 'F' then some (c.toNat - 55)
  else none

/-- Lowercase hexadecimal digit, as emitted by the Go encoder. -/
def hexDigit (n : Nat) : Char :=
  if n < 10 then Char.ofNat (48 + n) else Char.ofNat (87 + n)

/-- Escaping of one character in a JSON string by the Go encoder with its
default HTML escaping: quote and backslash get a backslash escape, newline,
carriage return and tab get their short escapes, the remaining control
characters and the HTML-relevant characters are emitted as a lowercase
backslash-u sequence, the line and paragraph separators likewise, and every
other character is emitted verbatim. -/
def escChar (c : Char) : Str :=
  if c = '"' then ['\\', '"']
  else if c = '\\' then ['\\', '\\']
  else if c = '\n' then ['\\', 'n']
  else if c = '\r' then ['\\', 'r']
  else if c = '\t' then ['\\', 't']
  else if c.toNat < 32 ∨ c = '<' ∨ c = '>' ∨ c = '&' then
    ['\\', 'u', '0', '0', hexDigit (c.toNat / 16), hexDigit (c.toNat % 16)]
  else if c.toNat = 8232 ∨ c.toNat = 8233 then
    ['\\', 'u', '2', '0', '2', if c.toNat = 8232 then '8' else '9']
  else [c]

/-- Escapes the characters of a string for the Go JSON encoder. -/
def esc (s : Str) : Str := s.flatMap escChar

/-- A complete JSON string literal: escaped content between double quotes. -/
def marshalStr (s : Str) : Str := '"' :: (esc s ++ ['"'])

/-- Decoding of a single-character escape by the Go JSON decoder. -/
def escDecode (e : Char) : Option Char :=
  if e = '"' then some '"'
  else if e = '\\' then some '\\'
  else if e = '/' then some '/'
  else if e = 'b' then some (Char.ofNat 8)
  else if e = 'f' then some (Char.ofNat 12)
  else if e = 'n' then some '\n'
  else if e = 'r' then some '\r'
  else if e = 't' then some '\t'
  else none

/-- Parses the body of a JSON string literal after its opening quote,
returning the decoded content and the input remaining after the closing
quote. Backslash-u sequences decode through Char.ofNat; the Go decoder maps
lone surrogates to the replacement character instead, a case no modelled
document produces. Raw control characters are rejected as in Go. -/
def parseStringBody : Str → Option (Str × Str)
  | [] => none
  | c :: r =>
    if c = '"' then some ([], r)
    else if c = '\\' then
      match r with
      | [] => none
      | e :: r2 =>
        if e = 'u' then
          match r2 with
          | h1 :: h2 :: h3 :: h4 :: r3 =>
            match hexVal h1, hexVal h2, hexVal h3, hexVal h4 with
            | some a, some b, some c2, some d =>
              (parseStringBody r3).map
                (fun p => (Char.ofNat (4096 * a + 256 * b + 16 * c2 + d) :: p.1, p.2))
            | _, _, _, _ => none
          | _ => none
        else
          match escDecode e with
          | some d => (parseStringBody r2).map (fun p => (d :: p.1, p.2))
          | none => none
    else if c.toNat < 32 then none
    else (parseStringBody r).map (fun p => (c :: p.1, p.2))

/-- A JSON value of the shapes the modelled documents contain. -/
inductive JValue where
  | str (s : Str)
  | num (n : Nat)
deriving DecidableEq

/-- Numeric value of a digit string. -/
def digitsToNat (l : Str) : Nat := l.foldl (fun a c => a * 10 + (c.toNat - 48)) 0

/-- Parses a JSON string literal, leading whitespace allowed. -/
def parseJString (cs : Str) : Option (Str × Str) :=
  match skipWs cs with
  | c :: r => if c = '"' then parseStringBody r else none
  | [] => none

/-- Consumes one expected punctuation character, leading whitespace allowed. -/
def expectChar (c : Char) (cs : Str) : Option Str :=
  match skipWs cs with
  | d :: r => if d = c then some r else none
  | [] => none

/-- Parses a JSON value: a string literal or a nonnegative integer literal.
The Go decoder also accepts fractional and signed numbers, booleans, null,
arrays and nested objects in value position; none occurs in a modelled
document. -/
def parseValue (cs : Str) : Option (JValue × Str) :=
  match skipWs cs with
  | [] => none
  | c :: r =>
    if c = '"' then (parseStringBody r).map (fun p => (JValue.str p.1, p.2))
    else if c.isDigit then
      some (JValue.num (digitsToNat ((c :: r).takeWhile Char.isDigit)),
        (c :: r).dropWhile Char.isDigit)
    else none

/-- Parses the members of a JSON object after its opening brace, one
key-value pair per fuel step: key string, colon, value, then either a comma
and further members or the closing brace. -/
def parsePairs : Nat → Str → Option (List (Str × JValue) × Str)
  | 0, _ => none
  | fuel + 1, cs =>
    (parseJString cs).bind fun ks =>
    (expectChar ':' ks.2).bind fun r2 =>
    (parseValue r2).bind fun vs =>
    match skipWs vs.2 with
    | d :: r4 =>
      if d = ',' then (parsePairs fuel r4).map (fun p => ((ks.1, vs.1) :: p.1, p.2))
      else if d = braceR then some ([(ks.1, vs.1)], r4)
      else none
    | [] => none

/-- Parses a top-level JSON object into its member list. -/
def parseTopObject (cs : Str) : Option (List (Str × JValue) × Str) :=
  (expectChar braceL cs).bind fun r =>
    match skipWs r with
    | d :: r2 => if d = braceR then some ([], r2) else parsePairs (r.length + 1) r
    | [] => none

/-- Parses a complete JSON document as json.Unmarshal does: one top-level
object (or the literal null, which Unmarshal treats as a no-op, modelled as
an empty member list) followed by nothing but whitespace. -/
def jsonParse (cs : Str) : Option (List (Str × JValue)) :=
  match parseTopObject cs with
  | some pr => if skipWs pr.2 = [] then some pr.1 else none
  | none =>
    let t := skipWs cs
    if t.take 4 = chars "null" ∧ skipWs (t.drop 4) = [] then some [] else none

/-- Case folding used when matching object keys against struct field tags:
json.Unmarshal prefers an exact match but accepts a case-insensitive one.
The ASCII fold below coincides with the Go fold on the modelled tags. -/
def keyFold (k : Str) : Str := k.map Char.toLower

/-! Data model of the package: the structs of paypal.go with their JSON tags. -/

/-- Config, paypal.go lines 15 to 20, with tags oauth-api, order-api,
client-id and secret. -/
structure Config where
  OAuthAPI : Str
  OrderAPI : Str
  ClientID : Str
  Secret : Str
deriving DecidableEq

/-- AuthResult, paypal.go lines 66 to 73. ExpiresIn is a Go int; the JSON
value model carries only the nonnegative integer literals the modelled
documents contain, so the field is a natural number here. -/
structure AuthResult where
  Scope : Str
  AccessToken : Str
  TokenType : Str
  AppID : Str
  ExpiresIn : Nat
  Nonce : Str
deriving DecidableEq

/-- The zero AuthResult allocated by Auth before decoding, paypal.go line 143. -/
def authResultZero : AuthResult := ⟨[], [], [], [], 0, []⟩

/-- Amount, paypal.go lines 89 to 92, its float64 value carried as the exact
rational produced by the rounding model. -/
structure Amount where
  CurrencyCode : Str
  Value : ℚ
deriving DecidableEq

/-- PurchaseUnit, paypal.go lines 82 to 87. -/
structure PurchaseUnit where
  Amount : Amount
  Description : Str
  CustomID : Str
  InvoiceID : Str
deriving DecidableEq

/-- ApplicationContext, paypal.go lines 94 to 96. -/
structure ApplicationContext where
  ShippingPreference : Str
deriving DecidableEq

/-- OrderRequest, paypal.go lines 75 to 79. -/
structure OrderRequest where
  Intent : Str
  PurchaseUnits : List PurchaseUnit
  ApplicationContext : ApplicationContext
deriving DecidableEq

/-- Hypermedia link object, paypal.go lines 101 to 105. -/
structure LinkObject where
  Href : Str
  Rel : Str
  Method : Str
deriving DecidableEq

/-- GenerateOrderResponse, paypal.go lines 98 to 106. The links member is an
array, a value shape outside the JSON model; no claim decodes one. -/
structure GenerateOrderResponse where
  ID : Str
  Status : Str
  Links : List LinkObject
deriving DecidableEq

/-- The zero GenerateOrderResponse allocated at paypal.go line 202. -/
def generateOrderResponseZero : GenerateOrderResponse := ⟨[], [], []⟩

/-- CaptureResponse, paypal.go lines 210 to 280, restricted to its two
top-level string fields: the nested purchase-unit, payer and link members
are read by no claim and their array and object shapes lie outside the JSON
value model. -/
structure CaptureResponse where
  ID : Str
  Status : Str
deriving DecidableEq

/-- The zero CaptureResponse allocated at paypal.go line 314. -/
def captureResponseZero : CaptureResponse := ⟨[], []⟩

/-- Applies one decoded object member to a Config the way json.Unmarshal
does: a matching key assigns the field (a later duplicate wins), a number in
a string field is a type error, an unknown key is ignored. -/
def updConfig (c : Config) (kv : Str × JValue) : Except Str Config :=
  if keyFold kv.1 = chars "oauth-api" then
    match kv.2 with
    | JValue.str s => Except.ok { c with OAuthAPI := s }
    | JValue.num _ => Except.error (chars "cannot unmarshal number into field oauth-api")
  else if keyFold kv.1 = chars "order-api" then
    match kv.2 with
    | JValue.str s => Except.ok { c with OrderAPI := s }
    | JValue.num _ => Except.error (chars "cannot unmarshal number into field order-api")
  else if keyFold kv.1 = chars "client-id" then
    match kv.2 with
    | JValue.str s => Except.ok { c with ClientID := s }
    | JValue.num _ => Except.error (chars "cannot unmarshal number into field client-id")
  else if keyFold kv.1 = chars "secret" then
    match kv.2 with
    | JValue.str s => Except.ok { c with Secret := s }
    | JValue.num _ => Except.error (chars "cannot unmarshal number into field secret")
  else Except.ok c

/-- Applies one decoded object member to an AuthResult. -/
def updAuth (a : AuthResult) (kv : Str × JValue) : Except Str AuthResult :=
  if keyFold kv.1 = chars "scope" then
    match kv.2 with
    | JValue.str s => Except.ok { a with Scope := s }
    | JValue.num _ => Except.error (chars "cannot unmarshal number into field scope")
  else if keyFold kv.1 = chars "access_token" then
    match kv.2 with
    | JValue.str s => Except.ok { a with AccessToken := s }
    | JValue.num _ => Except.error (chars "cannot unmarshal number into field access_token")
  else if keyFold kv.1 = chars "token_type" then
    match kv.2 with
    | JValue.str s => Except.ok { a with TokenType := s }
    | JValue.num _ => Except.error (chars "cannot unmarshal number into field token_type")
  else if keyFold kv.1 = chars "app_id" then
    match kv.2 with
    | JValue.str s => Except.ok { a with AppID := s }
    | JValue.num _ => Except.error (chars "cannot unmarshal number into field app_id")
  else if keyFold kv.1 = chars "expires_in" then
    match kv.2 with
    | JValue.num n => Except.ok { a with ExpiresIn := n }
    | JValue.str _ => Except.error (chars "cannot unmarshal string into field expires_in")
  else if keyFold kv.1 = chars "nonce" then
    match kv.2 with
    | JValue.str s => Except.ok { a with Nonce := s }
    | JValue.num _ => Except.error (chars "cannot unmarshal number into field nonce")
  else Except.ok a

/-- Applies one decoded object member to a GenerateOrderResponse. The links
member never occurs in a modelled document and is treated as unknown. -/
def updGen (g : GenerateOrderResponse) (kv : Str × JValue) :
    Except Str GenerateOrderResponse :=
  if keyFold kv.1 = chars "id" then
    match kv.2 with
    | JValue.str s => Except.ok { g with ID := s }
    | JValue.num _ => Except.error (chars "cannot unmarshal number into field id")
  else if keyFold kv.1 = chars "status" then
    match kv.2 with
    | JValue.str s => Except.ok { g with Status := s }
    | JValue.num _ => Except.error (chars "cannot unmarshal number into field status")
  else Except.ok g

/-- Applies one decoded object member to a CaptureResponse. -/
def updCapture (g : CaptureResponse) (kv : Str × JValue) :
    Except Str CaptureResponse :=
  if keyFold kv.1 = chars "id" then
    match kv.2 with
    | JValue.str s => Except.ok { g with ID := s }
    | JValue.num _ => Except.error (chars "cannot unmarshal number into field id")
  else if keyFold kv.1 = chars "status" then
    match kv.2 with
    | JValue.str s => Except.ok { g with Status := s }
    | JValue.num _ => Except.error (chars "cannot unmarshal number into field status")
  else Except.ok g

/-- Generic json.Unmarshal into a struct: parse the document, then fold the
members into the given initial value. The Go decoder reports distinct
syntax-error texts; the model folds them into one, which no claim reads. -/
def unmarshalWith (upd : α → Str × JValue → Except Str α) (init : α) (body : Str) :
    Except Str α :=
  match jsonParse body with
  | none => Except.error (chars "invalid json")
  | some pairs => pairs.foldlM upd init

/-- Model of json.Unmarshal into a Config, paypal.go line 34. -/
def unmarshalConfig (body : Str) : Except Str Config :=
  unmarshalWith updConfig ⟨[], [], [], []⟩ body

/-- Output of json.Marshal on a Config, paypal.go line 56: the four tagged
fields in declaration order, no spacing, Go string escaping. -/
def marshalConfig (c : Config) : Str :=
  braceL ::
    (marshalStr (chars "oauth-api") ++ ':' ::
      (marshalStr c.OAuthAPI ++ ',' ::
        (marshalStr (chars "order-api") ++ ':' ::
          (marshalStr c.OrderAPI ++ ',' ::
            (marshalStr (chars "client-id") ++ ':' ::
              (marshalStr c.ClientID ++ ',' ::
                (marshalStr (chars "secret") ++ ':' ::
                  (marshalStr c.Secret ++ [braceR]))))))))

/-! Filesystem model for Load and Create. -/

/-- A file: content and permission bits. -/
structure GoFile where
  content : Str
  mode : Nat
deriving DecidableEq

/-- The filesystem: an association list from paths to files. Failure modes
other than absence of the path (permissions, transient errors) are outside
the model. -/
abbrev FileSys := List (Str × GoFile)

/-- Looks a path up in the filesystem. -/
def findFile : FileSys → Str → Option GoFile
  | [], _ => none
  | (q, f) :: rest, p => if q = p then some f else findFile rest p

/-- Model of os.ReadFile: the content when the path exists. -/
def readFile (fs : FileSys) (p : Str) : Option Str := (findFile fs p).map GoFile.content

/-- Model of os.WriteFile: an existing file is truncated and keeps its mode,
a new file is created with the given permission bits. -/
def writeFile : FileSys → Str → Str → Nat → FileSys
  | [], p, c, m => [(p, ⟨c, m⟩)]
  | (q, f) :: rest, p, c, m =>
    if q = p then (q, ⟨c, f.mode⟩) :: rest else (q, f) :: writeFile rest p c m

/-- Model of Create, paypal.go lines 55 to 64: writes the marshalled empty
Config with permission bits 0600 and always produces the error naming the
path. json.Marshal cannot fail on a Config, and write failures are outside
the filesystem model. -/
def Create (fs : FileSys) (jsonPath : Str) : FileSys × Str :=
  (writeFile fs jsonPath (marshalConfig ⟨[], [], [], []⟩) 0o600,
    chars "created empty config file: " ++ jsonPath)

/-- Model of Load, paypal.go lines 24 to 51. -/
def Load (fs : FileSys) (jsonPath : Str) : FileSys × Except Str Config :=
  match readFile fs jsonPath with
  | none =>
    let r := Create fs jsonPath
    (r.1, Except.error r.2)
  | some data =>
    match unmarshalConfig data with
    | Except.error e => (fs, Except.error e)
    | Except.ok config =>
      if config.OAuthAPI = [] then
        (fs, Except.error (chars "missing oauth-api in paypal config file"))
      else if config.OrderAPI = [] then
        (fs, Except.error (chars "missing order-api in paypal config file"))
      else if config.ClientID = [] then
        (fs, Except.error (chars "missing client-id in paypal config file"))
      else if config.Secret = [] then
        (fs, Except.error (chars "missing secret in paypal config file"))
      else (fs, Except.ok config)

/-! Models of the two order operations up to the point where the request is
handed to the HTTP client, and of their response handling afterwards. -/

/-- Model of the URL validation http.NewRequest performs through net/url:
a URL string containing an ASCII control byte is rejected. The remaining
syntactic failure modes of net/url (stray percent escapes, bad ports) occur
for no input considered here and are outside the model; in particular the
empty string parses successfully, exactly as in Go. -/
def urlOk (s : Str) : Bool := s.all (fun c => 32 ≤ c.toNat ∧ c.toNat ≠ 127)

/-- The outbound order-creation call handed to the HTTP client by
CreateOrder: target URL, Authorization header value, and the order request
that is serialized into the body. -/
structure OrderCall where
  url : Str
  bearer : Str
  request : OrderRequest
deriving DecidableEq

/-- The outbound capture call handed to the HTTP client by Capture: target
URL and Authorization header value; the request carries no body. -/
structure CaptureCall where
  url : Str
  bearer : Str
deriving DecidableEq

/-- Model of CreateOrder up to the network call, paypal.go lines 148 to 188:
the order request is built unconditionally from the arguments (lines 150 to
166), marshalled (which cannot fail for this struct), and handed to the HTTP
client with a Bearer header taken verbatim from auth.AccessToken; none means
http.NewRequest rejected the URL string, the only exit before the network
call. No argument is validated. -/
def CreateOrder (config : Config) (auth : AuthResult)
    (description customID invoiceID : Str) (euroCents : ℤ) : Option OrderCall :=
  if urlOk config.OrderAPI then
    some
      { url := config.OrderAPI
        bearer := chars "Bearer " ++ auth.AccessToken
        request :=
          { Intent := chars "CAPTURE"
            PurchaseUnits :=
              [{ Amount := { CurrencyCode := chars "EUR", Value := f64Div100Z euroCents }
                 Description := description
                 CustomID := customID
                 InvoiceID := invoiceID }]
            ApplicationContext := { ShippingPreference := chars "NO_SHIPPING" } } }
  else none

/-- Model of Capture up to the network call, paypal.go lines 283 to 300:
the target is built from the order endpoint and the order id, and the
request is handed to the HTTP client unconditionally; none means
http.NewRequest rejected the URL string. No argument is validated. -/
def Capture (config : Config) (auth : AuthResult) (orderID : Str) : Option CaptureCall :=
  if urlOk (captureURL config.OrderAPI orderID) then
    some
      { url := captureURL config.OrderAPI orderID
        bearer := chars "Bearer " ++ auth.AccessToken }
  else none

/-- Decoding step shared by the three operations, after the body has been
read: a struct value is allocated first and returned together with any
decode error, mirroring the final two lines of each operation. On a decode
error Go may leave members decoded before the failure assigned; the model
returns the zero value then, a difference no claim observes. -/
def unmarshalAuthInto (body : Str) : AuthResult × Option Str :=
  match unmarshalWith updAuth authResultZero body with
  | Except.ok a => (a, none)
  | Except.error e => (authResultZero, some e)

/-- Decoding of a CreateOrder response body, paypal.go lines 202 to 203. -/
def unmarshalGenInto (body : Str) : GenerateOrderResponse × Option Str :=
  match unmarshalWith updGen generateOrderResponseZero body with
  | Except.ok g => (g, none)
  | Except.error e => (generateOrderResponseZero, some e)

/-- Decoding of a Capture response body, paypal.go lines 314 to 315. -/
def unmarshalCaptureInto (body : Str) : CaptureResponse × Option Str :=
  match unmarshalWith updCapture captureResponseZero body with
  | Except.ok g => (g, none)
  | Except.error e => (captureResponseZero, some e)

/-- Response handling of Auth, paypal.go lines 139 to 145: code is
resp.StatusCode and status the textual resp.Status line. -/
def authHandleResponse (code : Nat) (status body : Str) :
    Option AuthResult × Option Str :=
  if code ≠ 200 then
    (none, some (chars "error getting auth: " ++ status ++ chars ": " ++ body))
  else
    let p := unmarshalAuthInto body
    (some p.1, p.2)

/-- Response handling of CreateOrder, paypal.go lines 198 to 203. -/
def createOrderHandleResponse (code : Nat) (status body : Str) :
    Option GenerateOrderResponse × Option Str :=
  if code ≠ 201 then
    (none, some (chars "error doing order: " ++ status ++ chars ": " ++ body))
  else
    let p := unmarshalGenInto body
    (some p.1, p.2)

/-- Response handling of Capture, paypal.go lines 310 to 315. -/
def captureHandleResponse (code : Nat) (status body : Str) :
    Option CaptureResponse × Option Str :=
  if code ≠ 201 then
    (none, some (chars "error capturing: " ++ status ++ chars ": " ++ body))
  else
    let p := unmarshalCaptureInto body
    (some p.1, p.2)

/-- The first missing-field check that fires in Load for a decoded Config,
mirroring the check order of paypal.go lines 38 to 49. -/
def missingFieldMsg (c : Config) : Option Str :=
  if c.OAuthAPI = [] then some (chars "missing oauth-api in paypal config file")
  else if c.OrderAPI = [] then some (chars "missing order-api in paypal config file")
  else if c.ClientID = [] then some (chars "missing client-id in paypal config file")
  else if c.Secret = [] then some (chars "missing secret in paypal config file")
  else none

/-! Lemmas about the rounding model. -/

theorem abs_rne_sub_le (q : ℚ) : |(rne q : ℚ) - q| ≤ 1/2 := by
  have h0 : ((⌊q⌋ : ℤ) : ℚ) ≤ q := Int.floor_le q
  have h1 : q < (⌊q⌋ : ℚ) + 1 := Int.lt_floor_add_one q
  unfold rne
  split_ifs with ha hb hc <;> rw [abs_le] <;> push_cast <;> constructor <;> linarith

theorem rne_eq_of_abs_lt {q : ℚ} {m : ℤ} (h : |q - (m : ℚ)| < 1/2) : rne q = m := by
  have hl : (m : ℚ) - 1/2 < q := by have := abs_lt.mp h; linarith [this.1]
  have hr : q < (m : ℚ) + 1/2 := by have := abs_lt.mp h; linarith [this.2]
  by_cases hq : (m : ℚ) ≤ q
  · have hf : ⌊q⌋ = m := by
      rw [Int.floor_eq_iff]
      exact ⟨hq, by linarith⟩
    unfold rne
    rw [hf, if_pos (by linarith)]
  · have hf : ⌊q⌋ = m - 1 := by
      rw [Int.floor_eq_iff]
      push_cast
      constructor <;> linarith [not_le.mp hq]
    unfold rne
    rw [hf, if_neg (by push_cast; linarith [not_le.mp hq]),
      if_pos (by push_cast; linarith [not_le.mp hq])]
    omega

theorem abs_rndAt_sub_le (e : ℤ) (q : ℚ) : |rndAt e q - q| ≤ 2 ^ e / 2 := by
  have hp : (0 : ℚ) < 2 ^ e := zpow_pos (by norm_num) e
  have hkey : rndAt e q - q = ((rne (q / 2 ^ e) : ℤ) - q / 2 ^ e) * 2 ^ e := by
    unfold rndAt
    field_simp
  rw [hkey, abs_mul, abs_of_pos hp]
  calc |((rne (q / 2 ^ e) : ℤ) : ℚ) - q / 2 ^ e| * 2 ^ e
      ≤ (1/2) * 2 ^ e := by
        exact mul_le_mul_of_nonneg_right (abs_rne_sub_le (q / 2 ^ e)) (le_of_lt hp)
    _ = 2 ^ e / 2 := by ring

theorem log2f_le {k : ℕ} : ∀ (fuel n : ℕ), n < 2 ^ (k + 1) → log2f fuel n ≤ k := by
  induction k with
  | zero =>
    intro fuel n h
    match fuel with
    | 0 => simp [log2f]
    | fuel + 1 =>
      have : n ≤ 1 := by omega
      simp [log2f, this]
  | succ k ih =>
    intro fuel n h
    match fuel with
    | 0 => simp [log2f]
    | fuel + 1 =>
      by_cases hn : n ≤ 1
      · simp [log2f, hn]
      · have hd : n / 2 < 2 ^ (k + 1) := by
          rw [Nat.div_lt_iff_lt_mul (by norm_num)]
          calc n < 2 ^ (k + 1 + 1) := h
            _ = 2 ^ (k + 1) * 2 := by ring
        simp only [log2f, hn, if_false]
        have := ih fuel (n / 2) hd
        omega

theorem f64Div100_close {n : ℕ} (h1 : 1 ≤ n) (h : n ≤ 99999999) :
    |f64Div100 n - (n : ℚ) / 100| < 1/200 := by
  have hn0 : n ≠ 0 := by omega
  have harg : n * 2 ^ 20 / 100 < 2 ^ 40 := by
    rw [Nat.div_lt_iff_lt_mul (by norm_num)]
    calc n * 2 ^ 20 ≤ 99999999 * 2 ^ 20 := Nat.mul_le_mul_right _ h
      _ < 2 ^ 40 * 100 := by norm_num
  have hlog : floorLog2 (n * 2 ^ 20 / 100) ≤ 39 := by
    have : n * 2 ^ 20 / 100 < 2 ^ (39 + 1) := harg
    exact log2f_le 128 (n * 2 ^ 20 / 100) this
  set e : ℤ := (floorLog2 (n * 2 ^ 20 / 100) : ℤ) - 20 - 52 with he
  have hee : e ≤ -33 := by omega
  have hval : f64Div100 n = rndAt e ((n : ℚ) / 100) := by
    simp [f64Div100, hn0, he]
  have hbound := abs_rndAt_sub_le e ((n : ℚ) / 100)
  have hmono : (2 : ℚ) ^ e ≤ 2 ^ (-33 : ℤ) := zpow_le_zpow_right₀ (by norm_num) hee
  have hfin : (2 : ℚ) ^ (-33 : ℤ) / 2 < 1/200 := by norm_num
  rw [hval]
  calc |rndAt e ((n : ℚ) / 100) - (n : ℚ) / 100| ≤ 2 ^ e / 2 := hbound
    _ ≤ 2 ^ (-33 : ℤ) / 2 := by gcongr
    _ < 1/200 := hfin

/-- C1: for every integer cents value in [0, 99999999], the amount conversion
performed by CreateOrder (float64(euroCents) / 100.0, placed in the purchase
unit Amount.Value) produces a value that carries no rounding error at two
decimal places: rounding the float64 result to two decimal places recovers
cents/100 exactly. -/
theorem c1_amount_conversion_two_decimals (n : ℕ) (h : n ≤ 99999999) :
    round2 (f64Div100 n) = (n : ℚ) / 100 := by
  by_cases hn : n = 0
  · subst hn
    have h0 : f64Div100 0 = 0 := by simp [f64Div100]
    have hr : rne 0 = 0 := by
      unfold rne
      norm_num
    rw [h0]
    unfold round2
    rw [zero_mul, hr]
    norm_num
  · have hclose := f64Div100_close (Nat.one_le_iff_ne_zero.mpr hn) h
    have habs : |f64Div100 n * 100 - ((n : ℤ) : ℚ)| < 1/2 := by
      have hkey : f64Div100 n * 100 - ((n : ℤ) : ℚ) = (f64Div100 n - (n : ℚ) / 100) * 100 := by
        push_cast
        ring
      rw [hkey, abs_mul]
      have : |(100 : ℚ)| = 100 := by norm_num
      rw [this]
      linarith
    unfold round2
    rw [rne_eq_of_abs_lt habs]
    push_cast
    ring

/-- Witness for C1 at the concrete input 1050 named by the claim:
1050 cents converts to a value that rounds at two decimal places to 10.5. -/
theorem c1_amount_conversion_two_decimals_witness :
    1050 ≤ 99999999 ∧ round2 (f64Div100 1050) = 21/2 := by
  constructor
  · norm_num
  · have h := c1_amount_conversion_two_decimals 1050 (by norm_num)
    rw [h]
    norm_num

/-- C10: ensureTrailingSlash always yields a string ending in a slash, is
idempotent, is the identity on strings already ending in a slash, and
appends exactly one slash otherwise. -/
theorem c10_ensureTrailingSlash_spec (s : Str) :
    endsWithSlash (ensureTrailingSlash s) = true ∧
    ensureTrailingSlash (ensureTrailingSlash s) = ensureTrailingSlash s ∧
    (endsWithSlash s = true → ensureTrailingSlash s = s) ∧
    (endsWithSlash s = false → ensureTrailingSlash s = s ++ ['/']) := by
  by_cases h : endsWithSlash s
  · refine ⟨?_, ?_, fun _ => ?_, fun hf => ?_⟩ <;>
      simp [ensureTrailingSlash, h] at *
  · have he : endsWithSlash (s ++ ['/']) = true := by
      simp [endsWithSlash, List.getLast?_concat]
    refine ⟨?_, ?_, fun ht => ?_, fun _ => ?_⟩
    · simp [ensureTrailingSlash, h, he]
    · simp [ensureTrailingSlash, h, he]
    · exact absurd ht (by simp [h])
    · simp [ensureTrailingSlash, h]

/-- Witness for C10 at a concrete input without a trailing slash. -/
theorem c10_ensureTrailingSlash_spec_witness :
    ensureTrailingSlash (chars "abc") = chars "abc/" := by
  have h := (c10_ensureTrailingSlash_spec (chars "abc")).2.2.2 (by decide)
  rw [h]
  decide

/-- C2: the request target constructed by Capture joins the order endpoint
base and the order id with exactly one path separator: if the base does not
end in a slash exactly one slash is appended before the order id, and if it
already ends in a slash no second slash is introduced; the id is always
followed by the literal suffix /capture. -/
theorem c2_capture_url_single_separator (base orderID : Str) :
    (endsWithSlash base = false →
      captureURL base orderID = base ++ '/' :: (orderID ++ chars "/capture")) ∧
    (endsWithSlash base = true →
      captureURL base orderID = base ++ (orderID ++ chars "/capture")) := by
  constructor
  · intro h
    unfold captureURL ensureTrailingSlash
    rw [h]
    simp
  · intro h
    unfold captureURL ensureTrailingSlash
    rw [h]
    simp

/-- Witness for C2 at the concrete base and order id named by the claim. -/
theorem c2_capture_url_single_separator_witness :
    captureURL (chars "https://api.example.com/v2/orders") (chars "1AB23456CD789012E") =
      chars "https://api.example.com/v2/orders/1AB23456CD789012E/capture" := by
  have h := (c2_capture_url_single_separator
    (chars "https://api.example.com/v2/orders") (chars "1AB23456CD789012E")).1 (by decide)
  rw [h]
  decide

/-! Lemmas: the parser inverts the marshaller. -/

theorem hexVal_hexDigit {n : Nat} (h : n < 16) : hexVal (hexDigit n) = some n := by
  interval_cases n <;> decide

theorem escChar_step (c : Char) (t : Str) :
    parseStringBody (escChar c ++ t) =
      (parseStringBody t).map (fun p => (c :: p.1, p.2)) := by
  have hq : ('\\' : Char) ≠ '"' := by decide
  by_cases h1 : c = '"'
  · subst h1
    rw [show escChar '"' = ['\\', '"'] from by decide]
    simp only [List.cons_append, List.nil_append]
    rw [parseStringBody.eq_def]
    simp only [if_neg hq, if_pos rfl, ite_true,
      if_neg (show ('"' : Char) ≠ 'u' from by decide),
      show escDecode '"' = some '"' from by decide]
  by_cases h2 : c = '\\'
  · subst h2
    rw [show escChar '\\' = ['\\', '\\'] from by decide]
    simp only [List.cons_append, List.nil_append]
    rw [parseStringBody.eq_def]
    simp only [if_neg hq, if_pos rfl, ite_true,
      if_neg (show ('\\' : Char) ≠ 'u' from by decide),
      show escDecode '\\' = some '\\' from by decide]
  by_cases h3 : c = '\n'
  · subst h3
    rw [show escChar '\n' = ['\\', 'n'] from by decide]
    simp only [List.cons_append, List.nil_append]
    rw [parseStringBody.eq_def]
    simp only [if_neg hq, if_pos rfl, ite_true,
      if_neg (show ('n' : Char) ≠ 'u' from by decide),
      show escDecode 'n' = some '\n' from by decide]
  by_cases h4 : c = '\x0d'
  · subst h4
    rw [show escChar '\x0d' = ['\\', 'r'] from by decide]
    simp only [List.cons_append, List.nil_append]
    rw [parseStringBody.eq_def]
    simp only [if_neg hq, if_pos rfl, ite_true,
      if_neg (show ('r' : Char) ≠ 'u' from by decide),
      show escDecode 'r' = some '\x0d' from by decide]
  by_cases h5 : c = '\t'
  · subst h5
    rw [show escChar '\t' = ['\\', 't'] from by decide]
    simp only [List.cons_append, List.nil_append]
    rw [parseStringBody.eq_def]
    simp only [if_neg hq, if_pos rfl, ite_true,
      if_neg (show ('t' : Char) ≠ 'u' from by decide),
      show escDecode 't' = some '\t' from by decide]
  by_cases h6 : c.toNat < 32 ∨ c = '<' ∨ c = '>' ∨ c = '&'
  · have hesc : escChar c =
        ['\\', 'u', '0', '0', hexDigit (c.toNat / 16), hexDigit (c.toNat % 16)] := by
      simp [escChar, h1, h2, h3, h4, h5, h6]
    have hlt : c.toNat < 256 := by
      rcases h6 with h | h | h | h
      · omega
      · subst h; decide
      · subst h; decide
      · subst h; decide
    have hdiv : c.toNat / 16 < 16 := by omega
    have hmod : c.toNat % 16 < 16 := by omega
    rw [hesc]
    simp only [List.cons_append, List.nil_append, parseStringBody,
      if_neg hq, if_pos rfl, hexVal_hexDigit hdiv, hexVal_hexDigit hmod,
      show hexVal '0' = some 0 from by decide]
    simp only [show 4096 * 0 + 256 * 0 + 16 * (c.toNat / 16) + c.toNat % 16 = c.toNat
        from by omega, Char.ofNat_toNat]
    simp
  by_cases h7 : c.toNat = 8232 ∨ c.toNat = 8233
  · rcases h7 with h | h
    · have hc : c = Char.ofNat 8232 := by
        have h0 := Char.ofNat_toNat c
        rw [h] at h0
        exact h0.symm
      subst hc
      rw [show escChar (Char.ofNat 8232) = ['\\', 'u', '2', '0', '2', '8'] from by decide]
      simp only [List.cons_append, List.nil_append, parseStringBody,
        if_neg hq, if_pos rfl, show hexVal '2' = some 2 from by decide,
        show hexVal '0' = some 0 from by decide, show hexVal '8' = some 8 from by decide]
      norm_num
    · have hc : c = Char.ofNat 8233 := by
        have h0 := Char.ofNat_toNat c
        rw [h] at h0
        exact h0.symm
      subst hc
      rw [show escChar (Char.ofNat 8233) = ['\\', 'u', '2', '0', '2', '9'] from by decide]
      simp only [List.cons_append, List.nil_append, parseStringBody,
        if_neg hq, if_pos rfl, show hexVal '2' = some 2 from by decide,
        show hexVal '0' = some 0 from by decide, show hexVal '9' = some 9 from by decide]
      norm_num
  · have hesc : escChar c = [c] := by
      simp [escChar, h1, h2, h3, h4, h5, h6, h7]
    have hge : ¬ c.toNat < 32 := fun hlt => h6 (Or.inl hlt)
    rw [hesc]
    simp only [List.cons_append, List.nil_append]
    rw [parseStringBody.eq_def]
    simp only [if_neg h1, if_neg h2, if_neg hge]

theorem parseStringBody_esc (s rest : Str) :
    parseStringBody (esc s ++ ('"' :: rest)) = some (s, rest) := by
  induction s with
  | nil =>
    simp only [esc, List.flatMap_nil, List.nil_append]
    rw [parseStringBody.eq_def]
    simp
  | cons c s ih =>
    have he : esc (c :: s) = escChar c ++ esc s := by
      simp [esc]
    rw [he, List.append_assoc, escChar_step, ih]
    rfl

theorem skipWs_cons {c : Char} (h : isWs c = false) (r : Str) :
    skipWs (c :: r) = c :: r := by
  simp [skipWs, h]

theorem marshalStr_shape (k rest : Str) :
    marshalStr k ++ rest = '"' :: (esc k ++ ('"' :: rest)) := by
  simp [marshalStr]

theorem parseJString_marshal (k rest : Str) :
    parseJString (marshalStr k ++ rest) = some (k, rest) := by
  rw [marshalStr_shape]
  unfold parseJString
  rw [skipWs_cons (by decide)]
  simp [parseStringBody_esc]

theorem parseValue_marshal (v rest : Str) :
    parseValue (marshalStr v ++ rest) = some (JValue.str v, rest) := by
  rw [marshalStr_shape]
  unfold parseValue
  rw [skipWs_cons (by decide)]
  simp [parseStringBody_esc]

theorem parsePairs_step (fuel : ℕ) (k v rest : Str) :
    parsePairs (fuel + 1) (marshalStr k ++ ':' :: (marshalStr v ++ ',' :: rest)) =
      (parsePairs fuel rest).map (fun p => ((k, JValue.str v) :: p.1, p.2)) := by
  simp only [parsePairs,
    parseJString_marshal k (':' :: (marshalStr v ++ ',' :: rest)), Option.some_bind]
  rw [show expectChar ':' (':' :: (marshalStr v ++ ',' :: rest)) =
      some (marshalStr v ++ ',' :: rest) from by
    unfold expectChar
    rw [skipWs_cons (by decide)]
    simp]
  simp only [Option.some_bind, parseValue_marshal v (',' :: rest)]
  rw [skipWs_cons (by decide)]
  simp

theorem parsePairs_last (fuel : ℕ) (k v rest : Str) :
    parsePairs (fuel + 1) (marshalStr k ++ ':' :: (marshalStr v ++ braceR :: rest)) =
      some ([(k, JValue.str v)], rest) := by
  simp only [parsePairs,
    parseJString_marshal k (':' :: (marshalStr v ++ braceR :: rest)), Option.some_bind]
  rw [show expectChar ':' (':' :: (marshalStr v ++ braceR :: rest)) =
      some (marshalStr v ++ braceR :: rest) from by
    unfold expectChar
    rw [skipWs_cons (by decide)]
    simp]
  simp only [Option.some_bind, parseValue_marshal v (braceR :: rest)]
  rw [skipWs_cons (by decide)]
  simp [show braceR ≠ ',' from by decide]

theorem updConfig_key1 (c : Config) (s : Str) :
    updConfig c (chars "oauth-api", JValue.str s) = Except.ok { c with OAuthAPI := s } := by
  simp [updConfig, show keyFold (chars "oauth-api") = chars "oauth-api" from by decide]

theorem updConfig_key2 (c : Config) (s : Str) :
    updConfig c (chars "order-api", JValue.str s) = Except.ok { c with OrderAPI := s } := by
  simp [updConfig, show keyFold (chars "order-api") = chars "order-api" from by decide,
    show chars "order-api" ≠ chars "oauth-api" from by decide]

theorem updConfig_key3 (c : Config) (s : Str) :
    updConfig c (chars "client-id", JValue.str s) = Except.ok { c with ClientID := s } := by
  simp [updConfig, show keyFold (chars "client-id") = chars "client-id" from by decide,
    show chars "client-id" ≠ chars "oauth-api" from by decide,
    show chars "client-id" ≠ chars "order-api" from by decide]

theorem updConfig_key4 (c : Config) (s : Str) :
    updConfig c (chars "secret", JValue.str s) = Except.ok { c with Secret := s } := by
  simp [updConfig, show keyFold (chars "secret") = chars "secret" from by decide,
    show chars "secret" ≠ chars "oauth-api" from by decide,
    show chars "secret" ≠ chars "order-api" from by decide,
    show chars "secret" ≠ chars "client-id" from by decide]

theorem parseTopObject_marshal (k X : Str) :
    parseTopObject (braceL :: (marshalStr k ++ X)) =
      parsePairs ((marshalStr k ++ X).length + 1) (marshalStr k ++ X) := by
  unfold parseTopObject
  rw [show expectChar braceL (braceL :: (marshalStr k ++ X)) = some (marshalStr k ++ X) from by
    unfold expectChar
    rw [skipWs_cons (by decide)]
    simp]
  simp only [Option.some_bind]
  rw [marshalStr_shape, skipWs_cons (by decide)]
  simp [show ('"' : Char) ≠ braceR from by decide]

theorem jsonParse_marshalConfig (A B C D : Str) :
    jsonParse (marshalConfig ⟨A, B, C, D⟩) =
      some [(chars "oauth-api", JValue.str A), (chars "order-api", JValue.str B),
        (chars "client-id", JValue.str C), (chars "secret", JValue.str D)] := by
  have hm : marshalConfig ⟨A, B, C, D⟩ = braceL :: (marshalStr (chars "oauth-api") ++ ':' ::
      (marshalStr A ++ ',' :: (marshalStr (chars "order-api") ++ ':' ::
        (marshalStr B ++ ',' :: (marshalStr (chars "client-id") ++ ':' ::
          (marshalStr C ++ ',' :: (marshalStr (chars "secret") ++ ':' ::
            (marshalStr D ++ braceR :: [])))))))) := rfl
  rw [hm]
  unfold jsonParse
  rw [parseTopObject_marshal]
  set X := ':' :: (marshalStr A ++ ',' :: (marshalStr (chars "order-api") ++ ':' ::
    (marshalStr B ++ ',' :: (marshalStr (chars "client-id") ++ ':' ::
      (marshalStr C ++ ',' :: (marshalStr (chars "secret") ++ ':' ::
        (marshalStr D ++ braceR :: []))))))) with hX
  have h3 : 3 ≤ (marshalStr (chars "oauth-api") ++ X).length := by
    simp [marshalStr, hX]
    omega
  have hm4 : (marshalStr (chars "oauth-api") ++ X).length + 1 =
      ((marshalStr (chars "oauth-api") ++ X).length - 3) + 4 := by omega
  rw [hm4]
  set m := (marshalStr (chars "oauth-api") ++ X).length - 3 with hmdef
  rw [hX]
  rw [show m + 4 = (m + 3) + 1 from rfl, parsePairs_step]
  rw [show m + 3 = (m + 2) + 1 from rfl, parsePairs_step]
  rw [show m + 2 = (m + 1) + 1 from rfl, parsePairs_step]
  rw [parsePairs_last]
  simp [skipWs]

theorem unmarshalConfig_marshal (c : Config) :
    unmarshalConfig (marshalConfig c) = Except.ok c := by
  obtain ⟨A, B, C, D⟩ := c
  unfold unmarshalConfig unmarshalWith
  rw [jsonParse_marshalConfig]
  simp [List.foldlM, updConfig_key1, updConfig_key2, updConfig_key3, updConfig_key4]
  rfl

theorem findFile_writeFile_new {fs : FileSys} {p : Str} (h : findFile fs p = none)
    (content : Str) (mode : Nat) :
    findFile (writeFile fs p content mode) p = some ⟨content, mode⟩ := by
  induction fs with
  | nil => simp [writeFile, findFile]
  | cons hd tl ih =>
    obtain ⟨q, f⟩ := hd
    by_cases hq : q = p
    · rw [findFile] at h
      simp [hq] at h
    · rw [findFile] at h
      simp only [if_neg hq] at h
      rw [writeFile]
      simp only [if_neg hq]
      rw [findFile]
      simp only [if_neg hq]
      exact ih h

/-- C8: for every Configuration in which all four fields are non-empty,
loading a file containing exactly its JSON serialization succeeds, yields an
equal Configuration value, and leaves the filesystem untouched. -/
theorem c8_load_roundtrip (c : Config) (fs : FileSys) (p : Str)
    (h1 : c.OAuthAPI ≠ []) (h2 : c.OrderAPI ≠ []) (h3 : c.ClientID ≠ [])
    (h4 : c.Secret ≠ []) (hread : readFile fs p = some (marshalConfig c)) :
    Load fs p = (fs, Except.ok c) := by
  unfold Load
  rw [hread]
  dsimp only
  rw [unmarshalConfig_marshal]
  simp [h1, h2, h3, h4]

/-- Witness for C8 at a concrete four-field configuration stored at a
concrete path. -/
theorem c8_load_roundtrip_witness :
    Load [(chars "paypal.json",
        ⟨marshalConfig ⟨chars "a", chars "b", chars "c", chars "d"⟩, 384⟩)]
      (chars "paypal.json") =
    ([(chars "paypal.json",
        ⟨marshalConfig ⟨chars "a", chars "b", chars "c", chars "d"⟩, 384⟩)],
      Except.ok ⟨chars "a", chars "b", chars "c", chars "d"⟩) :=
  c8_load_roundtrip ⟨chars "a", chars "b", chars "c", chars "d"⟩ _ _
    (by decide) (by decide) (by decide) (by decide) (by decide)

/-- C4: loading a nonexistent path writes a placeholder file containing the
serialized all-empty Config, with permission bits 0600, and fails with an
error naming the path; loading that same still-empty file again returns the
field-missing error for the first empty field and leaves the filesystem
unchanged, creating no further file. -/
theorem c4_load_missing_creates (fs : FileSys) (p : Str)
    (h : readFile fs p = none) :
    (Load fs p).2 = Except.error (chars "created empty config file: " ++ p) ∧
    findFile (Load fs p).1 p = some ⟨marshalConfig ⟨[], [], [], []⟩, 0o600⟩ ∧
    Load (Load fs p).1 p =
      ((Load fs p).1, Except.error (chars "missing oauth-api in paypal config file")) := by
  have hfind : findFile fs p = none := by
    unfold readFile at h
    cases hf : findFile fs p with
    | none => rfl
    | some f => rw [hf] at h; simp at h
  have hload1 : Load fs p = (writeFile fs p (marshalConfig ⟨[], [], [], []⟩) 0o600,
      Except.error (chars "created empty config file: " ++ p)) := by
    unfold Load Create
    rw [h]
  rw [hload1]
  refine ⟨rfl, findFile_writeFile_new hfind _ _, ?_⟩
  have hread2 : readFile (writeFile fs p (marshalConfig ⟨[], [], [], []⟩) 0o600) p =
      some (marshalConfig ⟨[], [], [], []⟩) := by
    unfold readFile
    rw [findFile_writeFile_new hfind]
    rfl
  unfold Load
  rw [hread2]
  dsimp only
  rw [unmarshalConfig_marshal]
  simp

/-- Witness for C4 starting from the empty filesystem. -/
theorem c4_load_missing_creates_witness :
    (Load [] (chars "paypal.json")).2 =
      Except.error (chars "created empty config file: " ++ chars "paypal.json") ∧
    findFile (Load [] (chars "paypal.json")).1 (chars "paypal.json") =
      some ⟨marshalConfig ⟨[], [], [], []⟩, 0o600⟩ ∧
    Load (Load [] (chars "paypal.json")).1 (chars "paypal.json") =
      ((Load [] (chars "paypal.json")).1,
        Except.error (chars "missing oauth-api in paypal config file")) :=
  c4_load_missing_creates [] (chars "paypal.json") rfl

/-- C7: for an existing file, Load fails with the parse error when the
content does not parse, and with the field-specific error of the first
empty field when it parses but a required field is empty; in both cases the
filesystem is returned unchanged and no Configuration value is produced. -/
theorem c7_load_field_and_parse_errors (fs : FileSys) (p data : Str)
    (hread : readFile fs p = some data) :
    (∀ e, unmarshalConfig data = Except.error e → Load fs p = (fs, Except.error e)) ∧
    (∀ cfg m, unmarshalConfig data = Except.ok cfg → missingFieldMsg cfg = some m →
      Load fs p = (fs, Except.error m)) := by
  constructor
  · intro e he
    unfold Load
    rw [hread]
    dsimp only
    rw [he]
  · intro cfg m hok hm
    unfold Load
    rw [hread]
    dsimp only
    rw [hok]
    unfold missingFieldMsg at hm
    split_ifs at hm with f1 f2 f3 f4 <;> simp_all

/-- Witness for C7: a file whose content is not JSON yields the parse
error, and a file holding a config with an empty client-id yields the
client-id field error. -/
theorem c7_load_field_and_parse_errors_witness :
    Load [(chars "a.json", ⟨chars "nope", 384⟩)] (chars "a.json") =
      ([(chars "a.json", ⟨chars "nope", 384⟩)], Except.error (chars "invalid json")) ∧
    Load [(chars "b.json",
        ⟨marshalConfig ⟨chars "x", chars "y", [], chars "z"⟩, 384⟩)] (chars "b.json") =
      ([(chars "b.json", ⟨marshalConfig ⟨chars "x", chars "y", [], chars "z"⟩, 384⟩)],
        Except.error (chars "missing client-id in paypal config file")) := by
  constructor
  · exact (c7_load_field_and_parse_errors
      [(chars "a.json", ⟨chars "nope", 384⟩)] (chars "a.json") (chars "nope")
      (by decide)).1 (chars "invalid json") (by decide)
  · exact (c7_load_field_and_parse_errors
      [(chars "b.json", ⟨marshalConfig ⟨chars "x", chars "y", [], chars "z"⟩, 384⟩)]
      (chars "b.json") (marshalConfig ⟨chars "x", chars "y", [], chars "z"⟩)
      (by decide)).2
      ⟨chars "x", chars "y", [], chars "z"⟩
      (chars "missing client-id in paypal config file")
      (unmarshalConfig_marshal ⟨chars "x", chars "y", [], chars "z"⟩) (by decide)

/-- Counterexample to C3 as stated: with a valid order endpoint, an all-empty
access token and an empty order id, Capture does not fail before network I/O;
it hands the HTTP client a request whose Authorization header value is the
bare prefix Bearer followed by nothing and whose target embeds the empty
order id. -/
theorem c3_counterexample_request_issued :
    Capture ⟨chars "https://oauth.example.com/token", chars "https://api.example.com/v2/orders",
        chars "cid", chars "sec"⟩ authResultZero [] =
      some ⟨chars "https://api.example.com/v2/orders//capture", chars "Bearer "⟩ ∧
    authResultZero.AccessToken = [] := by
  constructor
  · decide
  · rfl

/-- C3 amended: neither CreateOrder nor Capture validates the access token,
the order id, or any configuration field; each operation constructs its
request from the arguments as given and hands it to the HTTP client
unconditionally, the only earlier exit being a syntactically unparseable URL
string. An empty access token yields the literal header value Bearer
followed by a space, and an empty order id is embedded into the capture
target as an empty path segment. -/
theorem c3_no_validation_before_io (config : Config) (auth : AuthResult)
    (orderID d ci inv : Str) (n : ℤ)
    (hcap : urlOk (captureURL config.OrderAPI orderID) = true)
    (hord : urlOk config.OrderAPI = true) :
    Capture config auth orderID =
      some ⟨captureURL config.OrderAPI orderID, chars "Bearer " ++ auth.AccessToken⟩ ∧
    (CreateOrder config auth d ci inv n).isSome = true := by
  constructor
  · simp [Capture, hcap]
  · simp [CreateOrder, hord]

/-- Witness for the amended C3 at concrete inputs with an empty token and an
empty order id: both operations still issue their requests. -/
theorem c3_no_validation_before_io_witness :
    Capture ⟨chars "https://o.example.com", chars "https://api.example.com/v2/orders",
        chars "cid", chars "sec"⟩ authResultZero (chars "") =
      some ⟨captureURL (chars "https://api.example.com/v2/orders") (chars ""),
        chars "Bearer " ++ authResultZero.AccessToken⟩ ∧
    (CreateOrder ⟨chars "https://o.example.com", chars "https://api.example.com/v2/orders",
        chars "cid", chars "sec"⟩ authResultZero (chars "d") (chars "c") (chars "i")
        100).isSome = true :=
  c3_no_validation_before_io
    ⟨chars "https://o.example.com", chars "https://api.example.com/v2/orders",
      chars "cid", chars "sec"⟩ authResultZero (chars "") (chars "d") (chars "c") (chars "i")
    100 (by decide) (by decide)

/-- C5: for every response to Auth whose status is not 200, the operation
returns no AuthResult and an error message holding exactly the error prefix,
the textual status line and the raw body; on a 200 response whose body does
not parse as JSON, the operation returns the parse error. -/
theorem c5_auth_error_handling (code : ℕ) (status body : Str) :
    (code ≠ 200 → authHandleResponse code status body =
      (none, some (chars "error getting auth: " ++ status ++ chars ": " ++ body))) ∧
    (jsonParse body = none →
      authHandleResponse 200 status body =
        (some authResultZero, some (chars "invalid json"))) := by
  constructor
  · intro h
    simp [authHandleResponse, h]
  · intro h
    simp [authHandleResponse, unmarshalAuthInto, unmarshalWith, h]

/-- Witness for C5: a 403 with status line 403 Forbidden and body forbidden
produces no result together with the full diagnostic message, and malformed
JSON on a 200 produces a parse error. -/
theorem c5_auth_error_handling_witness :
    authHandleResponse 403 (chars "403 Forbidden") (chars "forbidden") =
      (none, some (chars "error getting auth: " ++ chars "403 Forbidden" ++ chars ": " ++
        chars "forbidden")) ∧
    authHandleResponse 200 (chars "200 OK") (chars "<html>") =
      (some authResultZero, some (chars "invalid json")) :=
  ⟨(c5_auth_error_handling 403 (chars "403 Forbidden") (chars "forbidden")).1 (by decide),
    (c5_auth_error_handling 200 (chars "200 OK") (chars "<html>")).2 (by decide)⟩

/-- C6: every CreateOrder call constructs an order request with intent
CAPTURE, exactly one purchase unit whose amount carries currency code EUR
and the float64 quotient of the cents input by 100 (which for cents in the
claimed range recovers cents/100 at two decimal places, by the C1 theorem),
and an application context with shipping preference NO_SHIPPING; and the
response handling of a 201 response with the concrete body naming order id
1AB23456CD789012E returns a result carrying exactly that id. -/
theorem c6_createorder_request_and_response (config : Config) (auth : AuthResult)
    (d ci inv : Str) (n : ℤ) (h : urlOk config.OrderAPI = true) :
    CreateOrder config auth d ci inv n =
      some { url := config.OrderAPI
             bearer := chars "Bearer " ++ auth.AccessToken
             request :=
               { Intent := chars "CAPTURE"
                 PurchaseUnits := [{ Amount := ⟨chars "EUR", f64Div100Z n⟩,
                                     Description := d, CustomID := ci, InvoiceID := inv }]
                 ApplicationContext := { ShippingPreference := chars "NO_SHIPPING" } } } ∧
    (∀ status, createOrderHandleResponse 201 status
        (chars "\x7b\"id\":\"1AB23456CD789012E\",\"status\":\"CREATED\"\x7d") =
      (some { ID := chars "1AB23456CD789012E", Status := chars "CREATED", Links := [] },
        none)) := by
  constructor
  · simp [CreateOrder, h]
  · intro status
    have hdec : unmarshalGenInto
        (chars "\x7b\"id\":\"1AB23456CD789012E\",\"status\":\"CREATED\"\x7d") =
        ({ ID := chars "1AB23456CD789012E", Status := chars "CREATED", Links := [] },
          none) := by decide
    simp [createOrderHandleResponse, hdec]

/-- Witness for C6 at a concrete configuration and amount. -/
theorem c6_createorder_request_and_response_witness :
    CreateOrder ⟨chars "https://o.example.com", chars "https://api.example.com/v2/orders",
        chars "cid", chars "sec"⟩ authResultZero (chars "d") (chars "c") (chars "i") 1050 =
      some { url := chars "https://api.example.com/v2/orders"
             bearer := chars "Bearer " ++ authResultZero.AccessToken
             request :=
               { Intent := chars "CAPTURE"
                 PurchaseUnits := [{ Amount := ⟨chars "EUR", f64Div100Z 1050⟩,
                                     Description := chars "d", CustomID := chars "c",
                                     InvoiceID := chars "i" }]
                 ApplicationContext := { ShippingPreference := chars "NO_SHIPPING" } } } ∧
    createOrderHandleResponse 201 (chars "201 Created")
        (chars "\x7b\"id\":\"1AB23456CD789012E\",\"status\":\"CREATED\"\x7d") =
      (some { ID := chars "1AB23456CD789012E", Status := chars "CREATED", Links := [] },
        none) :=
  ⟨(c6_createorder_request_and_response
      ⟨chars "https://o.example.com", chars "https://api.example.com/v2/orders",
        chars "cid", chars "sec"⟩ authResultZero (chars "d") (chars "c") (chars "i") 1050
      (by decide)).1,
    (c6_createorder_request_and_response
      ⟨chars "https://o.example.com", chars "https://api.example.com/v2/orders",
        chars "cid", chars "sec"⟩ authResultZero (chars "d") (chars "c") (chars "i") 1050
      (by decide)).2 (chars "201 Created")⟩

/-- C9: on the expected success status (200 for Auth, 201 for CreateOrder
and Capture) with a body that fails to decode, each operation returns a
non-nil result pointer together with a non-nil decode error, whereas on any
other status the result pointer is nil; callers therefore must check the
error and cannot rely on a nil result to detect failure. -/
theorem c9_result_pointer_shape (code : ℕ) (status body : Str) :
    ((authHandleResponse code status body).1 = none ↔ code ≠ 200) ∧
    ((unmarshalAuthInto body).2.isSome = true →
      (authHandleResponse 200 status body).1.isSome = true ∧
      (authHandleResponse 200 status body).2.isSome = true) ∧
    ((createOrderHandleResponse code status body).1 = none ↔ code ≠ 201) ∧
    ((unmarshalGenInto body).2.isSome = true →
      (createOrderHandleResponse 201 status body).1.isSome = true ∧
      (createOrderHandleResponse 201 status body).2.isSome = true) ∧
    ((captureHandleResponse code status body).1 = none ↔ code ≠ 201) ∧
    ((unmarshalCaptureInto body).2.isSome = true →
      (captureHandleResponse 201 status body).1.isSome = true ∧
      (captureHandleResponse 201 status body).2.isSome = true) := by
  refine ⟨?_, ?_, ?_, ?_, ?_, ?_⟩
  · by_cases h : code = 200 <;> simp [authHandleResponse, h]
  · intro h
    exact ⟨by simp [authHandleResponse], by simp [authHandleResponse, h]⟩
  · by_cases h : code = 201 <;> simp [createOrderHandleResponse, h]
  · intro h
    exact ⟨by simp [createOrderHandleResponse], by simp [createOrderHandleResponse, h]⟩
  · by_cases h : code = 201 <;> simp [captureHandleResponse, h]
  · intro h
    exact ⟨by simp [captureHandleResponse], by simp [captureHandleResponse, h]⟩

/-- Witness for C9 at a malformed body and a wrong status code. -/
theorem c9_result_pointer_shape_witness :
    (authHandleResponse 200 (chars "200 OK") (chars "nope")).1.isSome = true ∧
    (authHandleResponse 200 (chars "200 OK") (chars "nope")).2.isSome = true ∧
    (authHandleResponse 500 (chars "500 Internal Server Error") (chars "nope")).1 = none ∧
    (createOrderHandleResponse 201 (chars "201 Created") (chars "nope")).1.isSome = true ∧
    (createOrderHandleResponse 201 (chars "201 Created") (chars "nope")).2.isSome = true ∧
    (captureHandleResponse 201 (chars "201 Created") (chars "nope")).1.isSome = true ∧
    (captureHandleResponse 201 (chars "201 Created") (chars "nope")).2.isSome = true := by
  have ha := (c9_result_pointer_shape 200 (chars "200 OK") (chars "nope")).2.1 (by decide)
  have hb := (c9_result_pointer_shape 500 (chars "500 Internal Server Error")
    (chars "nope")).1.mpr (by decide)
  have hc := (c9_result_pointer_shape 201 (chars "201 Created") (chars "nope")).2.2.2.1
    (by decide)
  have hd := (c9_result_pointer_shape 201 (chars "201 Created")
    (chars "nope")).2.2.2.2.2 (by decide)
  exact ⟨ha.1, ha.2, hb, hc.1, hc.2, hd.1, hd.2⟩
